import Mathlib

/-!
Verification of the slack-query-agent repository.

This file gives a shallow embedding of the deterministic logic of the repository:
the date/window utilities (`helpers.ts`), the channel selector and history
searcher of the query agent (`src/agents/query-agent/index.ts`), the thread
command handler (`src/agents/query-agent/threads.ts`), the memory write-back
(`src/agents/query-agent/memory.ts`) and the tail of the query orchestrator.

External services (the chat-completion API, the Slack tool broker, the Zep
memory service, the key-value store) are modelled as explicit inputs: a model
response becomes an `Option String` or an `Except` outcome parameter, the
key-value store becomes an explicit `KvStore` value threaded through the
functions, and JavaScript `Date` values become integer milliseconds since the
Unix epoch interpreted in a fixed (offset-zero) time zone.
-/

set_option autoImplicit false

namespace SlackQuery

/-! JavaScript date model

JavaScript `new Date("MM/DD/YYYY")` parses the string as local midnight;
`getTime()` yields milliseconds since the epoch.  We model local time with a
zero UTC offset, so a calendar date corresponds to `days * 86400000`
milliseconds, where `days` is the civil day count from 1970-01-01 computed by
the standard civil-from-days / days-from-civil algorithms.
-/

/-- Days since 1970-01-01 of the civil date `y-m-d` (proleptic Gregorian). -/
def civilToDays (y m d : Int) : Int :=
  let y2 := if m ≤ 2 then y - 1 else y
  let era := Int.fdiv y2 400
  let yoe := y2 - era * 400
  let mShift := if 2 < m then m - 3 else m + 9
  let doy := Int.fdiv (153 * mShift + 2) 5 + d - 1
  let doe := yoe * 365 + Int.fdiv yoe 4 - Int.fdiv yoe 100 + doy
  era * 146097 + doe - 719468

/-- Civil date `(y, m, d)` of a day count since 1970-01-01. -/
def civilFromDays (z : Int) : Int × Int × Int :=
  let z2 := z + 719468
  let era := Int.fdiv z2 146097
  let doe := z2 - era * 146097
  let yoe := Int.fdiv (doe - Int.fdiv doe 1460 + Int.fdiv doe 36524 - Int.fdiv doe 146096) 365
  let y := yoe + era * 400
  let doy := doe - (365 * yoe + Int.fdiv yoe 4 - Int.fdiv yoe 100)
  let mp := Int.fdiv (5 * doy + 2) 153
  let d := doy - Int.fdiv (153 * mp + 2) 5 + 1
  let m := if mp < 10 then mp + 3 else mp - 9
  (if m ≤ 2 then y + 1 else y, m, d)

/-- Leap-year test of the Gregorian calendar. -/
def isLeapYear (y : Int) : Bool :=
  (Int.emod y 4 == 0 && Int.emod y 100 != 0) || Int.emod y 400 == 0

/-- Number of days of month `m` in year `y`. -/
def daysInMonth (y m : Int) : Int :=
  if m = 2 then (if isLeapYear y then 29 else 28)
  else if m = 4 ∨ m = 6 ∨ m = 9 ∨ m = 11 then 30
  else 31

/-- Accumulating worker of `digitsToNat?`. -/
def digitsToNatAux : List Char → Nat → Option Nat
  | [], acc => some acc
  | c :: cs, acc =>
    if c.isDigit then digitsToNatAux cs (acc * 10 + (c.toNat - '0'.toNat)) else none

/-- Value of a nonempty all-digit character list, `none` otherwise. -/
def digitsToNat? : List Char → Option Nat
  | [] => none
  | cs => digitsToNatAux cs 0

/-- Split a character list at `/` separators (keeping empty segments). -/
def splitSlash : List Char → List Char → List (List Char)
  | [], acc => [acc.reverse]
  | c :: cs, acc =>
    if c = '/' then acc.reverse :: splitSlash cs [] else splitSlash cs (c :: acc)

/-- Model of `new Date(s).getTime()` for a parseable `MM/DD/YYYY` string `s`:
milliseconds since the epoch of that civil date at (offset-zero) local
midnight.  Returns `none` when the string is not a valid `MM/DD/YYYY` calendar
date (modelling `NaN`).  Years below 100 are excluded because JavaScript
remaps two-digit years. -/
def parseDateMMDDYYYY (s : String) : Option Int :=
  match splitSlash s.toList [] with
  | [mcs, dcs, ycs] =>
    match digitsToNat? mcs, digitsToNat? dcs, digitsToNat? ycs with
    | some m, some d, some y =>
      if 1 ≤ m ∧ m ≤ 12 ∧ 100 ≤ y ∧ 1 ≤ d ∧ (d : Int) ≤ daysInMonth (y : Int) (m : Int)
      then some (civilToDays (y : Int) (m : Int) (d : Int) * 86400000)
      else none
    | _, _, _ => none
  | _ => none

/-- Day count of a millisecond timestamp (`Math.floor` semantics). -/
def msToDays (t : Int) : Int := Int.fdiv t 86400000

/-- Model of `String(n).padStart(2, "0")` for the month and day fields. -/
def pad2 (n : Int) : String :=
  if n < 10 ∧ 0 ≤ n then "0" ++ toString n else toString n

/-- The `MM/DD/YYYY` zero-padded rendering of a millisecond timestamp, as
built by the repository from `getMonth() + 1`, `getDate()` and
`getFullYear()` with `padStart(2, "0")` on month and day. -/
def formatDateMs (t : Int) : String :=
  match civilFromDays (msToDays t) with
  | (y, m, d) => pad2 m ++ "/" ++ pad2 d ++ "/" ++ toString y

/-- Model of `Math.ceil(a / b)` for integers `a` and positive `b`. -/
def jsCeilDiv (a b : Int) : Int := -(Int.fdiv (-a) b)

/-! Date and window utilities (`helpers.ts`) -/

/-- The `{startDate, endDate}` record exchanged between `extractDateStrings`
and `convertToUnixTimestamps`. -/
structure DateStrings where
  startDate : String
  endDate : String
deriving Repr, DecidableEq

/-- Result record of `convertToUnixTimestamps`. -/
structure ConvertResult where
  oldest : Int
  latest : Int
  limit : Int
deriving Repr, DecidableEq

/-- Embedding of `convertToUnixTimestamps` (`helpers.ts`): parse the two date
strings, convert to whole-second Unix timestamps with `Math.floor`, and derive
the fetch limit `Math.min(Math.max(daysDiff * 5, 50), 200)` where `daysDiff`
is `Math.ceil` of the millisecond difference over a day.  `none` models the
`NaN` outcome on unparseable dates; the claims quantify over parseable
inputs only. -/
def convertToUnixTimestamps (ds : DateStrings) : Option ConvertResult :=
  match parseDateMMDDYYYY ds.startDate, parseDateMMDDYYYY ds.endDate with
  | some sMs, some eMs =>
    let oldest := Int.fdiv sMs 1000
    let latest := Int.fdiv eMs 1000
    let daysDiff := jsCeilDiv (eMs - sMs) 86400000
    let limit := min (max (daysDiff * 5) 50) 200
    some { oldest := oldest, latest := latest, limit := limit }
  | _, _ => none

/-! JSON parsing model

Here `extractDateStrings` applies `JSON.parse` to the response text of the
model call and
uses the result as a `{startDate, endDate}` record.  We model `JSON.parse`
at this call site by a parser for flat JSON objects with string-valued
fields (optional whitespace, no escape sequences), from which the two fields
are read; a text that is not such an object — in particular any text
`JSON.parse` rejects — yields `none`.  JSON texts of other shapes, which the
call sites would consume as malformed records, are outside the model. -/

/-- Whitespace as skipped by `JSON.parse`. -/
def isJsonWs (c : Char) : Bool :=
  c == ' ' || c == '\t' || c == '\n' || c == '\r'

/-- Skip JSON whitespace. -/
def skipJsonWs (cs : List Char) : List Char := cs.dropWhile isJsonWs

/-- Read a JSON string body up to the closing quote (no escapes). -/
def readJStrAux : List Char → List Char → Option (String × List Char)
  | [], _ => none
  | c :: cs, acc =>
    if c = '"' then some (String.mk acc.reverse, cs)
    else if c = '\\' then none
    else readJStrAux cs (c :: acc)

/-- Read a quoted JSON string literal. -/
def readJString : List Char → Option (String × List Char)
  | '"' :: rest => readJStrAux rest []
  | _ => none

/-- Read the `"key": "value"` pairs of a flat JSON object, after the opening
brace, up to and through the closing brace.  `fuel` bounds the recursion. -/
def readPairs : Nat → List Char → Option (List (String × String) × List Char)
  | 0, _ => none
  | fuel + 1, cs =>
    match readJString (skipJsonWs cs) with
    | none => none
    | some (key, cs1) =>
      match skipJsonWs cs1 with
      | ':' :: cs2 =>
        match readJString (skipJsonWs cs2) with
        | none => none
        | some (val, cs3) =>
          match skipJsonWs cs3 with
          | ',' :: cs4 =>
            match readPairs fuel cs4 with
            | some (pairs, rest) => some ((key, val) :: pairs, rest)
            | none => none
          | '}' :: cs4 => some ([(key, val)], cs4)
          | _ => none
      | _ => none

/-- First value bound to key `k`. -/
def lookupStr (k : String) : List (String × String) → Option String
  | [] => none
  | (k2, v) :: rest => if k2 = k then some v else lookupStr k rest

/-- Model of `JSON.parse(text)` consumed as a `{startDate, endDate}` record:
`some` exactly when `text` is a flat string-valued JSON object containing
both fields. -/
def jsonParseDates (s : String) : Option DateStrings :=
  match skipJsonWs s.toList with
  | '{' :: rest =>
    match readPairs (rest.length + 1) rest with
    | some (pairs, rest2) =>
      if skipJsonWs rest2 = [] then
        match lookupStr "startDate" pairs, lookupStr "endDate" pairs with
        | some sd, some ed => some { startDate := sd, endDate := ed }
        | _, _ => none
      else none
    | none => none
  | _ => none

/-! Embedding of `extractDateStrings` (`helpers.ts`) -/

/-- The hardcoded default literal substituted for a null or empty model
response: `'\x7b"startDate": "12/03/2024", "endDate": "01/02/2025"\x7d'`. -/
def defaultDateLiteral : String :=
  "\x7b\"startDate\": \"12/03/2024\", \"endDate\": \"01/02/2025\"\x7d"

/-- Embedding of `extractDateStrings` (`helpers.ts`).  The model call is
replaced by its observable outcome `content` (the message content, `none`
for a null field); `nowMs` is the clock read by `new Date()` inside the
fallback branch.  The JavaScript `||` default also fires on an empty string.
On a parse failure the function returns the range from thirty days before
`nowMs` (via `getTime() - 30 * 24 * 60 * 60 * 1000`) to `nowMs`, both
rendered as zero-padded `MM/DD/YYYY`. -/
def extractDateStrings (content : Option String) (nowMs : Int) : DateStrings :=
  let responseText :=
    match content with
    | some s => if s = "" then defaultDateLiteral else s
    | none => defaultDateLiteral
  match jsonParseDates responseText with
  | some ds => ds
  | none =>
    { startDate := formatDateMs (nowMs - 30 * 24 * 60 * 60 * 1000),
      endDate := formatDateMs nowMs }

/-! Channel selector (`selectRelevantChannels`, `src/agents/query-agent/index.ts`).

The directory listing returned by the tool broker is the `allChannels` input;
each entry carries the already-projected `purpose?.value` / `topic?.value`
texts.  The selection response of the model, after `JSON.parse` and array
traversal, is the `selOutcome` input: `Except.ok` with the parsed channel
objects, or `Except.error` when `JSON.parse` throws or the parsed value is
not an array (both land in the same `catch`). -/

/-- A channel of the directory listing (`purpose`/`topic` hold
`ch.purpose?.value` / `ch.topic?.value`). -/
structure RawChannel where
  id : String
  name : String
  purpose : Option String
  topic : Option String
deriving Repr, DecidableEq

/-- A channel object parsed from the selection response of the model (absent
fields are `none`). -/
structure SelectedChannel where
  id : String
  name : String
  purpose : Option String
  topic : Option String
deriving Repr, DecidableEq

/-- The `{id, name, purpose, topic}` descriptor returned to the caller. -/
structure ChannelDescriptor where
  id : String
  name : String
  purpose : Option String
  topic : Option String
deriving Repr, DecidableEq

/-- Embedding of `selectRelevantChannels`: throw when the directory is empty;
otherwise map the parsed selection to descriptors, or on a parse/traversal
failure fall back to the first three directory channels. -/
def selectRelevantChannels (allChannels : List RawChannel)
    (selOutcome : Except Unit (List SelectedChannel)) :
    Except String (List ChannelDescriptor) :=
  if allChannels.length ≤ 0 then .error "Could not find any channels."
  else
    match selOutcome with
    | .ok selectedChannels =>
      .ok (selectedChannels.map fun ch =>
        { id := ch.id, name := ch.name, purpose := ch.purpose, topic := ch.topic })
    | .error _ =>
      .ok ((allChannels.take 3).map fun ch =>
        { id := ch.id, name := ch.name, purpose := ch.purpose, topic := ch.topic })

/-! History searcher (`searchChannelHistory`, `src/agents/query-agent/index.ts`).

The date-window computation (`getTodayDateString`, `extractDateStrings`,
`convertToUnixTimestamps`) only parameterizes the external history fetch,
whose result is the `rawMessages` input here; it does not otherwise affect
the returned list.  The relevance response, after `JSON.parse` and array
traversal, is `relOutcome`: `Except.ok` with the parsed index list, or
`Except.error` when parsing or traversal throws. -/

/-- An attachment record (`{title, original_url}`). -/
structure SlackAttachment where
  title : Option String
  original_url : Option String
deriving Repr, DecidableEq

/-- A raw fetched message (`attachments` is `none` when the field is
absent). -/
structure RawMessage where
  text : Option String
  ts : Option String
  user : Option String
  attachments : Option (List SlackAttachment)
deriving Repr, DecidableEq

/-- A normalized message `{text, ts, user, attachments}`. -/
structure NormMessage where
  text : Option String
  ts : Option String
  user : Option String
  attachments : List SlackAttachment
deriving Repr, DecidableEq

/-- The per-message normalization
`msg.attachments?.map(...) || []` of `searchChannelHistory`. -/
def normalizeMsg (msg : RawMessage) : NormMessage :=
  { text := msg.text, ts := msg.ts, user := msg.user,
    attachments :=
      (msg.attachments.map (List.map fun att =>
        { title := att.title, original_url := att.original_url })).getD [] }

/-- Embedding of `searchChannelHistory` after the fetch: normalize the raw
messages, return `[]` immediately on an empty list, and otherwise keep the
messages at the model-returned indices that lie in
`[0, messages.length)`, in the order the model returned them; on a parse
failure return
`[]`. -/
def searchChannelHistory (rawMessages : List RawMessage)
    (relOutcome : Except Unit (List Int)) : List NormMessage :=
  let messages := rawMessages.map normalizeMsg
  if messages.length = 0 then []
  else
    match relOutcome with
    | .ok relevantIndices =>
      (relevantIndices.filter fun idx =>
          decide (0 ≤ idx) && decide (idx < (messages.length : Int))).map
        (fun idx => (messages.get? idx.toNat).getD
          { text := none, ts := none, user := none, attachments := [] })
    | .error _ => []

/-! JavaScript string helpers used by the command handler -/

/-- Whitespace for `trim` and the `\s+` split. -/
def isWs (c : Char) : Bool :=
  c == ' ' || c == '\t' || c == '\n' || c == '\r'

/-- JavaScript `s.trim()`. -/
def jsTrim (s : String) : String :=
  String.mk (((s.toList.dropWhile isWs).reverse.dropWhile isWs).reverse)

/-- JavaScript `s.slice(n)`. -/
def jsDrop (s : String) (n : Nat) : String := String.mk (s.toList.drop n)

/-- JavaScript `s.startsWith(pre)`. -/
def jsStartsWith (s pre : String) : Bool := List.isPrefixOf pre.toList s.toList

/-- Accumulating worker of the `\s+` split on a trimmed string. -/
def splitWsAux : List Char → List Char → List String
  | [], acc => if acc = [] then [] else [String.mk acc.reverse]
  | c :: cs, acc =>
    if isWs c then
      if acc = [] then splitWsAux cs []
      else String.mk acc.reverse :: splitWsAux cs []
    else splitWsAux cs (c :: acc)

/-- JavaScript `s.split` on the whitespace pattern, for a trimmed string `s`
(whitespace runs separate
tokens; no empty tokens arise on trimmed input, matching the call site). -/
def jsSplitWs (s : String) : List String := splitWsAux s.toList []

/-! Thread directory state (`ctx.kv`).

The two key-value namespaces used by `threads.ts` and `memory.ts`, as
per-user partial maps: `slackq-threads` (the persisted thread-id list) and
`slackq-current-thread` (the current-thread pointer).  The store is modelled
as always reachable; a kv transport failure is not represented (no claim
depends on one). -/

/-- The persisted thread directory. -/
structure KvStore where
  threads : String → Option (List String)
  currentThread : String → Option String

/-- Embedding of `createThread` (`threads.ts`).  `newThreadId` is the
generated `uuid()`; `zepOk` is the outcome of the Zep user/thread creation
calls, which precede every kv mutation, so on failure the `catch` returns
the error string with the store unchanged. -/
def createThread (userId : String) (st : KvStore) (newThreadId : String)
    (zepOk : Bool) : String × KvStore :=
  if zepOk then
    let prevThreads :=
      match st.threads userId with
      | some ts => newThreadId :: ts
      | none => [newThreadId]
    (s!"Created thread: {newThreadId}",
      { threads := fun u => if u = userId then some prevThreads else st.threads u,
        currentThread := fun u => if u = userId then some newThreadId else st.currentThread u })
  else ("Error creating thread", st)

/-- Embedding of `listThreads` (`threads.ts`): a 1-indexed listing, or the
no-threads message. -/
def listThreads (userId : String) (st : KvStore) : String :=
  match st.threads userId with
  | none => "No threads found."
  | some threads =>
    "Threads:\n" ++ String.join (threads.mapIdx fun i t => s!"{i + 1}. {t}\n")

/-- Embedding of `switchThreads` (`threads.ts`): with no stored list, report
and leave the store unchanged; with a list missing the id, report and leave
the store unchanged; otherwise set the current-thread pointer. -/
def switchThreads (userId threadId : String) (st : KvStore) : String × KvStore :=
  match st.threads userId with
  | none => ("No threads found. Create a thread first with /thread -c", st)
  | some threads =>
    if ¬ threadId ∈ threads then
      (s!"Thread {threadId} not found in your threads.", st)
    else
      (s!"Switched to thread: {threadId}",
        { threads := st.threads,
          currentThread := fun u => if u = userId then some threadId else st.currentThread u })

/-- Outcome of the flag-parsing `while` loop of `handleCommand`. -/
inductive LoopResult where
  | err (msg : String)
  | done (flags : List String) (idArg : String)
deriving Repr, DecidableEq

/-- The flag-parsing `while` loop of `handleCommand` (`threads.ts`),
over the split parts, carrying the accumulated `flags` and `idArg`. -/
def parseParts : List String → List String → String → LoopResult
  | [], flags, idArg => .done flags idArg
  | part :: rest, flags, idArg =>
    if jsStartsWith part "-" then
      if 0 < flags.length then .err "Only one flag per run is allowed."
      else if part.length = 2 then
        let flagC := (part.toList.get? 1).getD 'x'
        if ¬ (flagC = 'c' ∨ flagC = 'l' ∨ flagC = 's') then
          .err ("Invalid flag: -" ++ String.mk [flagC] ++ ". Accepted flags are: -c, -l, -s")
        else if flagC = 's' then
          match rest with
          | [] => .err "Flag -s requires an ID argument."
          | idTok :: rest2 =>
            if jsStartsWith idTok "-" then .err "Only one flag per run is allowed."
            else parseParts rest2 (flags ++ ["s"]) idTok
        else parseParts rest (flags ++ ["-" ++ String.mk [flagC]]) idArg
      else if 2 < part.length then
        .err "Multiple flags in one dash not allowed. Use one flag per dash."
      else .err "Invalid flag format."
    else .err s!"Unexpected argument: {part}"

/-- The usage text returned by `~help` (four-space indentation, as in the
`~help` template literal). -/
def helpUsageText : String :=
  "~thread <flag>\n    -c: start a new thread\n    -l: list threads\n    -s <id>: switch to thread with id"

/-- The usage text of the `flags.length === 0` branch inside the
`~thread` argument parser (eight-space indentation; the branch is
unreachable because every nonempty part list either errors or records a
flag). -/
def threadUsageText : String :=
  "~thread <flag>\n        -c: start a new thread\n        -l: list threads\n        -s <id>: switch to thread with id"

/-- Embedding of `handleCommand` (`threads.ts`).  Returns the response text
and the resulting store.  `newThreadId`/`zepOk` parameterize the `-c` path.
When the trimmed argument string after `~thread` is empty, the
`if (commandString)` block is skipped and control falls through to the
trailing `return "text"`. -/
def handleCommand (userId userQuery : String) (st : KvStore)
    (newThreadId : String) (zepOk : Bool) : String × KvStore :=
  if jsStartsWith userQuery "~thread" then
    let commandString := jsTrim (jsDrop userQuery 7)
    if commandString.toList ≠ [] then
      match parseParts (jsSplitWs commandString) [] "" with
      | .err msg => (msg, st)
      | .done flags idArg =>
        if flags.length = 0 then (threadUsageText, st)
        else if flags.get? 0 = some "-c" then createThread userId st newThreadId zepOk
        else if flags.get? 0 = some "-l" then (listThreads userId st, st)
        else switchThreads userId idArg st
    else ("text", st)
  else if jsStartsWith userQuery "~help" then (helpUsageText, st)
  else ("Invalid command.", st)

/-! Memory write-back and the persistence step of the orchestrator

`storeMemory` in the wired `memory.ts` throws when the user has no
current-thread pointer and rethrows any failure of the Zep
`thread.addMessages` call — it has no `try`/`catch` (unlike the legacy
variants elsewhere in the repository).  The query orchestrator
(`index.ts`) runs `await storeMemory(...)` and only then
`return resp.text(finalResponse)`. -/

/-- Failure modes of `storeMemory`. -/
inductive MemErr where
  | noThread
  | zepFailure
deriving Repr, DecidableEq

/-- Embedding of `storeMemory` (`memory.ts`): error when no current thread
is set for the user, propagate a Zep `addMessages` failure (`zepAddOk`
models the outcome of that call), succeed otherwise. -/
def storeMemory (userId : String) (st : KvStore) (zepAddOk : Bool) :
    Except MemErr Unit :=
  match st.currentThread userId with
  | none => .error .noThread
  | some _ => if zepAddOk then .ok () else .error .zepFailure

/-- Embedding of the persistence step and return of the orchestrator
(`index.ts` lines 150–157): `await storeMemory(...)` rethrows any failure,
after which the synthesized `finalResponse` is returned. -/
def agentFinalize (userId finalResponse : String) (st : KvStore)
    (zepAddOk : Bool) : Except MemErr String :=
  match storeMemory userId st zepAddOk with
  | .ok _ => .ok finalResponse
  | .error e => .error e

/-! Sample stores used by concrete witnesses and counterexamples. -/

/-- A thread directory with no entries at all. -/
def emptyStore : KvStore := { threads := fun _ => none, currentThread := fun _ => none }

/-- A thread directory in which every user has the thread list `["t1"]` and
current thread `t1`. -/
def storeWithCurrent : KvStore :=
  { threads := fun _ => some ["t1"], currentThread := fun _ => some "t1" }

/-- A thread directory in which user `u1` has the thread list `["t1"]` and no
current thread. -/
def sampleThreadStore : KvStore :=
  { threads := fun u => if u = "u1" then some ["t1"] else none,
    currentThread := fun _ => none }

/-! Helper lemmas shared by the claim theorems. -/

/-- A list is a `isPrefixOf` of itself followed by anything. -/
theorem isPrefixOf_append_self (l r : List Char) : List.isPrefixOf l (l ++ r) = true := by
  induction l with
  | nil => simp [List.isPrefixOf]
  | cons a as ih => simp [List.isPrefixOf, ih]

/-- Dropping while `p` does nothing on a list whose prefix up to and
including an explicit break element refutes `p`. -/
theorem dropWhile_append_all_nonws {p : Char → Bool} (A : List Char) (c : Char) (B : List Char)
    (hA : ∀ x ∈ A, p x = false) (hc : p c = false) :
    List.dropWhile p (A ++ c :: B) = A ++ c :: B := by
  induction A with
  | nil => simp [List.dropWhile_cons, hc]
  | cons a as ih =>
    have ha : p a = false := hA a (List.mem_cons_self _ _)
    have ih2 := ih (fun x hx => hA x (List.mem_cons_of_mem _ hx))
    simp [List.dropWhile_cons, ha, ih2]

/-- On a nonempty whitespace-free list the split worker yields one token. -/
theorem splitWsAux_all_nonws (l : List Char) (acc : List Char) (hne : l ≠ [])
    (h : ∀ c ∈ l, isWs c = false) :
    splitWsAux l acc = [String.mk (acc.reverse ++ l)] := by
  induction l generalizing acc with
  | nil => exact absurd rfl hne
  | cons a l2 ih =>
    have ha : isWs a = false := h a (List.mem_cons_self _ _)
    unfold splitWsAux
    rw [ha]
    simp only [Bool.false_eq_true, if_false]
    cases l2 with
    | nil => simp [splitWsAux]
    | cons b l3 =>
      rw [ih (a :: acc) (by simp) (fun c hc => h c (List.mem_cons_of_mem _ hc))]
      simp

/-- Trimming the tail of `~thread -s <id>` after `slice(7)` leaves
`-s <id>`, for a nonempty whitespace-free id. -/
theorem trimDrop_dashS (d : String) (hne : d.toList ≠ [])
    (hws : ∀ c ∈ d.toList, isWs c = false) :
    (jsTrim (jsDrop ("~thread -s " ++ d) 7)).toList = '-' :: 's' :: ' ' :: d.toList := by
  obtain ⟨c, cs, hL⟩ : ∃ c cs, d.toList = c :: cs := by
    cases h : d.toList with
    | nil => exact absurd h hne
    | cons a l => exact ⟨a, l, rfl⟩
  have h7 : ("~thread -s " ++ d).toList.drop 7 = ' ' :: '-' :: 's' :: ' ' :: d.toList := by
    have hq : ("~thread -s " ++ d).toList
        = '~' :: 't' :: 'h' :: 'r' :: 'e' :: 'a' :: 'd' :: ' ' :: '-' :: 's' :: ' ' :: d.toList := by
      show ("~thread -s " ++ d).data = _
      rw [String.data_append]
      rfl
    rw [hq]
    rfl
  have h7s : jsDrop ("~thread -s " ++ d) 7 = String.mk (' ' :: '-' :: 's' :: ' ' :: d.toList) := by
    unfold jsDrop
    rw [h7]
  rw [h7s]
  unfold jsTrim
  show (((' ' :: '-' :: 's' :: ' ' :: d.toList).dropWhile isWs).reverse.dropWhile
      isWs).reverse = '-' :: 's' :: ' ' :: d.toList
  have hd1 : (' ' :: '-' :: 's' :: ' ' :: d.toList).dropWhile isWs
      = '-' :: 's' :: ' ' :: d.toList := rfl
  rw [hd1]
  have hrev : ('-' :: 's' :: ' ' :: d.toList).reverse
      = cs.reverse ++ c :: [' ', 's', '-'] := by
    rw [hL]
    simp
  rw [hrev]
  have hcns : isWs c = false := hws c (by rw [hL]; exact List.mem_cons_self _ _)
  rw [dropWhile_append_all_nonws cs.reverse c [' ', 's', '-']
    (fun x hx => hws x (by rw [hL]; exact List.mem_cons_of_mem _ (List.mem_reverse.mp hx))) hcns]
  rw [hL]
  simp

/-! Claim theorems. -/

/-- Claim C1 (code bug): the claim says a `storeMemory` failure does not
change the response of the query orchestrator, but the wired `memory.ts`
has no `try`/`catch` and `index.ts` awaits it bare, so the failure
propagates and the already-synthesized answer is not returned: with a
current thread set and a failing Zep `addMessages` call the orchestrator
ends in an error, as it does for a user with no current thread set, and
neither outcome equals returning the answer. -/
theorem storeMemory_failure_breaks_response :
    agentFinalize "u1" "the answer" storeWithCurrent false = .error .zepFailure ∧
    agentFinalize "u1" "the answer" emptyStore true = .error .noThread ∧
    (Except.error MemErr.zepFailure ≠ (Except.ok "the answer" : Except MemErr String)) :=
  ⟨rfl, rfl, fun h => Except.noConfusion h⟩

/-- Claim C2 (code bug): the claim says `~thread` with no arguments returns
the same usage text as `~help`, but the usage-text branch of the argument
parser is unreachable when the argument string is empty and control falls
through to the trailing `return "text"`: the command returns the literal
`"text"`, which differs from the `~help` usage text. -/
theorem thread_no_args_returns_text :
    (handleCommand "u1" "~thread" emptyStore "tid" true).1 = "text" ∧
    (handleCommand "u1" "~help" emptyStore "tid" true).1 = helpUsageText ∧
    ("text" : String) ≠ helpUsageText :=
  ⟨rfl, rfl, by decide⟩

/-- Claim C3: for every pair of parseable `MM/DD/YYYY` date strings,
`convertToUnixTimestamps` returns a result whose `limit` lies in
`[50, 200]` (including zero-length and negative ranges), and whose
`oldest ≤ latest` whenever the start date is not after the end date
(stated on the parsed millisecond timestamps, which order exactly as the
dates do). -/
theorem convertToUnixTimestamps_bounds (ds : DateStrings) (s e : Int)
    (hs : parseDateMMDDYYYY ds.startDate = some s)
    (he : parseDateMMDDYYYY ds.endDate = some e) :
    ∃ r, convertToUnixTimestamps ds = some r ∧
      50 ≤ r.limit ∧ r.limit ≤ 200 ∧ (s ≤ e → r.oldest ≤ r.latest) := by
  unfold convertToUnixTimestamps
  rw [hs, he]
  refine ⟨_, rfl, ?_, ?_, ?_⟩
  · exact le_min (le_max_right _ _) (by norm_num)
  · exact min_le_right _ _
  · intro hle
    show Int.fdiv s 1000 ≤ Int.fdiv e 1000
    rw [Int.fdiv_eq_ediv _ (by norm_num), Int.fdiv_eq_ediv _ (by norm_num)]
    exact Int.ediv_le_ediv (by norm_num) hle

/-- Witness for claim C3, at the reversed (negative) range from
`06/15/2024` back to `05/16/2024`. -/
theorem convertToUnixTimestamps_bounds_witness :
    ∃ r, convertToUnixTimestamps { startDate := "06/15/2024", endDate := "05/16/2024" } = some r ∧
      50 ≤ r.limit ∧ r.limit ≤ 200 ∧
      ((1718409600000 : Int) ≤ 1715817600000 → r.oldest ≤ r.latest) :=
  convertToUnixTimestamps_bounds _ _ _ rfl rfl

/-- Claim C4: for every nonempty model response text that `JSON.parse`
rejects, `extractDateStrings` returns exactly the range from thirty days
before the current clock to the current clock, both rendered by the
zero-padded `MM/DD/YYYY` formatter; the second conjunct records that the
start of that range is the civil date exactly 30 days before the end. -/
theorem extractDateStrings_parse_failure_fallback (s : String) (nowMs : Int)
    (hne : s ≠ "") (hbad : jsonParseDates s = none) :
    extractDateStrings (some s) nowMs =
      { startDate := formatDateMs (nowMs - 30 * 24 * 60 * 60 * 1000),
        endDate := formatDateMs nowMs } ∧
    msToDays (nowMs - 30 * 24 * 60 * 60 * 1000) = msToDays nowMs - 30 := by
  constructor
  · unfold extractDateStrings
    simp only [if_neg hne, hbad]
  · unfold msToDays
    rw [Int.fdiv_eq_ediv _ (by norm_num), Int.fdiv_eq_ediv _ (by norm_num)]
    have h : nowMs - 30 * 24 * 60 * 60 * 1000 = nowMs + (-30) * 86400000 := by ring
    rw [h, Int.add_mul_ediv_right _ _ (by norm_num : (86400000 : Int) ≠ 0)]
    ring

/-- Witness for claim C4, at the unparseable text `not json` with the clock
at `06/15/2024`, reproducing the worked example of the specification. -/
theorem extractDateStrings_parse_failure_fallback_witness :
    extractDateStrings (some "not json") 1718409600000 =
      { startDate := "05/16/2024", endDate := "06/15/2024" } ∧
    msToDays (1718409600000 - 30 * 24 * 60 * 60 * 1000) = msToDays 1718409600000 - 30 := by
  have h := extractDateStrings_parse_failure_fallback "not json" 1718409600000
    (by decide) (by rfl)
  exact ⟨h.1.trans (by rfl), h.2⟩

/-- Claim C5 counterexample: with a nonempty one-channel directory and a
parsed selection response of four channel objects, the channel selector
returns four descriptors, refuting the claimed bound of at most three. -/
theorem selectRelevantChannels_cap_counterexample :
    (selectRelevantChannels
        [{ id := "C100", name := "general", purpose := none, topic := none }]
        (.ok (List.replicate 4
          { id := "C900", name := "x", purpose := none, topic := none }))).map
      List.length = .ok 4 ∧ ¬ (4 : Nat) ≤ 3 :=
  ⟨rfl, by decide⟩

/-- Claim C5 (amended): given a nonempty channel directory, the channel
selector returns a list of `{id, name, purpose?, topic?}` descriptors; the
list has one descriptor per element of the parsed selection array when the
response parses (the bound of three is only requested in the prompt, not
enforced), and at most three descriptors on a parse failure. -/
theorem selectRelevantChannels_length_spec (dir : List RawChannel)
    (out : Except Unit (List SelectedChannel)) (hne : dir ≠ []) :
    ∃ l, selectRelevantChannels dir out = .ok l ∧
      (∀ cs, out = .ok cs → l.length = cs.length) ∧
      (∀ e, out = .error e → l.length ≤ 3) := by
  unfold selectRelevantChannels
  have hlen : ¬ dir.length ≤ 0 := by
    simp only [Nat.le_zero, List.length_eq_zero]
    exact hne
  rw [if_neg hlen]
  cases out with
  | ok cs =>
    refine ⟨_, rfl, fun cs2 h => ?_, fun e h => by cases h⟩
    cases h
    simp [List.length_map]
  | error e =>
    refine ⟨_, rfl, ?_, ?_⟩
    · intro cs h
      cases h
    · intro e2 _
      simp only [List.length_map, List.length_take]
      exact le_trans (min_le_left _ _) (le_refl 3)

/-- Witness for the amended claim C5, at a one-channel directory and a
failed parse. -/
theorem selectRelevantChannels_length_spec_witness :
    ∃ l, selectRelevantChannels
        [{ id := "C100", name := "general", purpose := none, topic := none }]
        (.error ()) = .ok l ∧
      (∀ cs, (.error () : Except Unit (List SelectedChannel)) = .ok cs → l.length = cs.length) ∧
      (∀ e, (.error () : Except Unit (List SelectedChannel)) = .error e → l.length ≤ 3) :=
  selectRelevantChannels_length_spec _ _ (by simp)

/-- Claim C6 counterexample: with one fetched message and a parsed
relevance response repeating index `0` six times, the history searcher
returns six message records, refuting the claimed bound of at most five. -/
theorem searchChannelHistory_cap_counterexample :
    (searchChannelHistory
        [{ text := some "m", ts := some "1", user := none, attachments := none }]
        (.ok [0, 0, 0, 0, 0, 0])).length = 6 ∧ ¬ (6 : Nat) ≤ 5 :=
  ⟨rfl, by decide⟩

/-- Claim C6 (amended): the history searcher returns at most one record per
model-returned index (the bound of five is only requested in the prompt,
not enforced), returns `[]` on a parse failure, and every returned record
is one of the normalized fetched messages. -/
theorem searchChannelHistory_length_spec (raws : List RawMessage) (idxs : List Int) :
    (searchChannelHistory raws (.ok idxs)).length ≤ idxs.length ∧
    searchChannelHistory raws (.error ()) = [] ∧
    ∀ m ∈ searchChannelHistory raws (.ok idxs), m ∈ raws.map normalizeMsg := by
  unfold searchChannelHistory
  by_cases hz : (raws.map normalizeMsg).length = 0
  · rw [if_pos hz]
    exact ⟨Nat.zero_le _, by rw [if_pos hz], fun m hm => absurd hm (List.not_mem_nil m)⟩
  · rw [if_neg hz]
    refine ⟨?_, by rw [if_neg hz], ?_⟩
    · rw [List.length_map]
      exact List.length_filter_le _ _
    · intro m hm
      rw [List.mem_map] at hm
      obtain ⟨i, hi, hmi⟩ := hm
      rw [List.mem_filter] at hi
      obtain ⟨hmem, hp⟩ := hi
      have h0 : (0 : Int) ≤ i := of_decide_eq_true (Bool.and_elim_left hp)
      have hlt : i < ((raws.map normalizeMsg).length : Int) :=
        of_decide_eq_true (Bool.and_elim_right hp)
      have hnat : i.toNat < (raws.map normalizeMsg).length := by omega
      rw [List.get?_eq_get hnat] at hmi
      rw [← hmi]
      exact List.get_mem _ _ _

/-- Witness for the amended claim C6, at one fetched message and the parsed
index list `[0, 2, -1]` (one valid and two out-of-range indices). -/
theorem searchChannelHistory_length_spec_witness :
    (searchChannelHistory
        [{ text := some "hello", ts := some "1", user := some "u", attachments := none }]
        (.ok [0, 2, -1])).length ≤ 3 ∧
    searchChannelHistory
        [{ text := some "hello", ts := some "1", user := some "u", attachments := none }]
        (.error ()) = [] ∧
    ∀ m ∈ searchChannelHistory
        [{ text := some "hello", ts := some "1", user := some "u", attachments := none }]
        (.ok [0, 2, -1]),
      m ∈ ([{ text := some "hello", ts := some "1", user := some "u",
              attachments := none }] : List RawMessage).map normalizeMsg :=
  searchChannelHistory_length_spec _ _

/-- Claim C7: given a nonempty channel directory and a selection response
on which parsing or the descriptor mapping fails, the channel selector
returns exactly the first three directory channels (all of them when fewer
than three exist), in directory order, each mapped to
`{id, name, purpose, topic}`. -/
theorem selectRelevantChannels_parse_failure_first_three (dir : List RawChannel)
    (hne : dir ≠ []) :
    selectRelevantChannels dir (.error ()) =
      .ok ((dir.take 3).map fun ch =>
        { id := ch.id, name := ch.name, purpose := ch.purpose, topic := ch.topic }) := by
  unfold selectRelevantChannels
  have hlen : ¬ dir.length ≤ 0 := by
    simp only [Nat.le_zero, List.length_eq_zero]
    exact hne
  rw [if_neg hlen]

/-- Witness for claim C7, at a two-channel directory: the fallback returns
both channels in directory order. -/
theorem selectRelevantChannels_parse_failure_first_three_witness :
    selectRelevantChannels
        [{ id := "C100", name := "general", purpose := some "p", topic := none },
         { id := "C200", name := "random", purpose := none, topic := some "t" }]
        (.error ()) =
      .ok [{ id := "C100", name := "general", purpose := some "p", topic := none },
           { id := "C200", name := "random", purpose := none, topic := some "t" }] :=
  (selectRelevantChannels_parse_failure_first_three _ (by simp)).trans (by rfl)

/-- Claim C8: each malformed command shape maps to its exact literal error
string: missing `-s` argument, two flags, an id absent from the stored
thread list, bundled flags, a non-flag token, and an unknown flag. -/
theorem handleCommand_error_strings (st : KvStore) (u tid : String) (zok : Bool)
    (ts : List String) (hts : st.threads u = some ts) (hmem : "unknown123" ∉ ts) :
    (handleCommand u "~thread -s" st tid zok).1 = "Flag -s requires an ID argument." ∧
    (handleCommand u "~thread -c -l" st tid zok).1 = "Only one flag per run is allowed." ∧
    (handleCommand u "~thread -s unknown123" st tid zok).1 =
      "Thread unknown123 not found in your threads." ∧
    (handleCommand u "~thread -cs" st tid zok).1 =
      "Multiple flags in one dash not allowed. Use one flag per dash." ∧
    (handleCommand u "~thread foo" st tid zok).1 = "Unexpected argument: foo" ∧
    (handleCommand u "~thread -x" st tid zok).1 =
      "Invalid flag: -x. Accepted flags are: -c, -l, -s" := by
  refine ⟨rfl, rfl, ?_, rfl, rfl, rfl⟩
  show (switchThreads u "unknown123" st).1 = _
  unfold switchThreads
  rw [hts]
  simp only [if_pos hmem]
  rfl

/-- Witness for claim C8, at a store where user `u1` owns exactly the
thread `t1`. -/
theorem handleCommand_error_strings_witness :
    (handleCommand "u1" "~thread -s" sampleThreadStore "tid" true).1 =
      "Flag -s requires an ID argument." ∧
    (handleCommand "u1" "~thread -c -l" sampleThreadStore "tid" true).1 =
      "Only one flag per run is allowed." ∧
    (handleCommand "u1" "~thread -s unknown123" sampleThreadStore "tid" true).1 =
      "Thread unknown123 not found in your threads." ∧
    (handleCommand "u1" "~thread -cs" sampleThreadStore "tid" true).1 =
      "Multiple flags in one dash not allowed. Use one flag per dash." ∧
    (handleCommand "u1" "~thread foo" sampleThreadStore "tid" true).1 =
      "Unexpected argument: foo" ∧
    (handleCommand "u1" "~thread -x" sampleThreadStore "tid" true).1 =
      "Invalid flag: -x. Accepted flags are: -c, -l, -s" :=
  handleCommand_error_strings sampleThreadStore "u1" "tid" true ["t1"] rfl (by decide)

/-- Claim C9: for a user whose thread directory stores no thread list at
all, `~thread -s <id>` (for any nonempty whitespace-free id token not
starting with a dash) returns exactly
`No threads found. Create a thread first with /thread -c` and leaves the
thread directory unchanged. -/
theorem switch_without_threads_no_mutation (st : KvStore) (u d tid : String) (zok : Bool)
    (hth : st.threads u = none) (hne : d.toList ≠ [])
    (hws : ∀ c ∈ d.toList, isWs c = false) (hdash : d.toList.head? ≠ some '-') :
    handleCommand u ("~thread -s " ++ d) st tid zok =
      ("No threads found. Create a thread first with /thread -c", st) := by
  obtain ⟨c, cs, hL⟩ : ∃ c cs, d.toList = c :: cs := by
    cases h : d.toList with
    | nil => exact absurd h hne
    | cons a l => exact ⟨a, l, rfl⟩
  have hc : ('-' == c) = false := by
    rw [hL] at hdash
    simp only [List.head?_cons, ne_eq, Option.some.injEq] at hdash
    exact beq_eq_false_iff_ne.mpr (fun h => hdash h.symm)
  have hpfx : jsStartsWith d "-" = false := by
    unfold jsStartsWith
    rw [show ("-" : String).toList = ['-'] from rfl, hL]
    simp [List.isPrefixOf, hc]
  have hstart : jsStartsWith ("~thread -s " ++ d) "~thread" = true := by
    unfold jsStartsWith
    have hq : ("~thread -s " ++ d).toList
        = "~thread".toList ++ (' ' :: '-' :: 's' :: ' ' :: d.toList) := by
      show ("~thread -s " ++ d).data = _
      rw [String.data_append]
      rfl
    rw [hq]
    exact isPrefixOf_append_self _ _
  have htrim := trimDrop_dashS d hne hws
  have hsplit : jsSplitWs (jsTrim (jsDrop ("~thread -s " ++ d) 7)) = ["-s", d] := by
    unfold jsSplitWs
    rw [htrim]
    rw [show splitWsAux ('-' :: 's' :: ' ' :: d.toList) []
        = "-s" :: splitWsAux d.toList [] from rfl]
    rw [splitWsAux_all_nonws d.toList [] hne hws]
    rfl
  have hpp : parseParts ["-s", d] [] "" = .done ["s"] d := by
    rw [show parseParts ["-s", d] [] ""
        = if jsStartsWith d "-" = true then LoopResult.err "Only one flag per run is allowed."
          else parseParts [] ["s"] d from rfl]
    rw [hpfx]
    simp only [Bool.false_eq_true, if_false]
    rfl
  unfold handleCommand
  rw [hstart]
  simp only [if_pos]
  rw [hsplit, hpp]
  have hne2 : (jsTrim (jsDrop ("~thread -s " ++ d) 7)).toList ≠ [] := by
    rw [htrim]
    exact List.cons_ne_nil _ _
  rw [if_pos hne2]
  show switchThreads u d st = ("No threads found. Create a thread first with /thread -c", st)
  unfold switchThreads
  rw [hth]

/-- Witness for claim C9, switching to `abc` as user `u1` over the empty
thread directory. -/
theorem switch_without_threads_no_mutation_witness :
    handleCommand "u1" ("~thread -s " ++ "abc") emptyStore "tid" true =
      ("No threads found. Create a thread first with /thread -c", emptyStore) :=
  switch_without_threads_no_mutation emptyStore "u1" "abc" "tid" true rfl
    (by decide) (by decide) (by decide)

/-- Claim C10: whatever the clock reads, a null or empty message content
makes `extractDateStrings` return exactly the hardcoded literal range
`12/03/2024 – 01/02/2025` (the default literal parses as valid JSON), so
the result does not depend on the current date. -/
theorem extractDateStrings_empty_content_default (nowMs : Int) :
    extractDateStrings none nowMs = { startDate := "12/03/2024", endDate := "01/02/2025" } ∧
    extractDateStrings (some "") nowMs = { startDate := "12/03/2024", endDate := "01/02/2025" } :=
  ⟨rfl, rfl⟩

/-- Witness for claim C10 at clock zero. -/
theorem extractDateStrings_empty_content_default_witness :
    extractDateStrings none 0 = { startDate := "12/03/2024", endDate := "01/02/2025" } ∧
    extractDateStrings (some "") 0 = { startDate := "12/03/2024", endDate := "01/02/2025" } :=
  extractDateStrings_empty_content_default 0

end SlackQuery
